import Mathlib

/-!
Shallow embedding of the HydrexFi DEX integration
(src/dex/hydrex-fi: hydrex-fi.ts, hydrex-fi-factory.ts, the event-pool module, types.ts).

Modelling conventions: JavaScript `bigint` values become `Int`, addresses become `String`,
`tvlUSD` (a JS float used only for comparison and ranking) becomes `ℚ`, throwing code
becomes `Except String`, and `null`-returning code becomes `Option`.  Remote calls
(batched RPC quotes, subgraph queries) are external collaborators; their awaited outcomes
are passed in as explicit arguments.
-/

namespace HydrexFi

/-- Token at the boundary (src/types.ts): the address and decimals fields used here. -/
structure Token where
  address : String
  decimals : Nat
deriving DecidableEq

/-- Pool (types.ts lines 26-32). -/
structure Pool where
  poolAddress : String
  token0 : String
  token1 : String
  deployer : String
  tvlUSD : ℚ
deriving DecidableEq

/-- SwapSide (src/constants.ts boundary). -/
inductive SwapSide
  | SELL
  | BUY
deriving DecidableEq, BEq

/-- NULL_ADDRESS (src/constants.ts boundary). -/
def NULL_ADDRESS : String := "0x0000000000000000000000000000000000000000"

/-- _sortTokens (hydrex-fi.ts lines 605-607): a two-element Array.sort with the comparator
a < b ? -1 : 1 returns the pair in ascending string order. -/
def _sortTokens (srcAddress destAddress : String) : List String :=
  if srcAddress < destAddress then [srcAddress, destAddress]
  else [destAddress, srcAddress]

/-- getPoolIdentifier (hydrex-fi.ts lines 95-102). -/
def getPoolIdentifier (dexKey srcAddress destAddress deployerAddress : String) : String :=
  dexKey ++ "_" ++ String.intercalate "_" ( _sortTokens srcAddress destAddress)
    ++ "_" ++ deployerAddress

/-- getMockPriceForTesting (hydrex-fi.ts lines 613-627): the fixed linear fallback rate
(JS bigint division truncates toward zero, `Int.tdiv`). -/
def getMockPriceForTesting (amount : Int) (isSELL : Bool) : Int :=
  if amount = 0 then 0
  else if isSELL then Int.tdiv (amount * 2500) (10 ^ 12)
  else Int.tdiv (amount * 10 ^ 12) 2500

/-- JavaScript array read amounts[i]: `none` (undefined) when negative or out of range. -/
def jsIndex (l : List Int) (i : Int) : Option Int :=
  if i < 0 then none else l.get? i.toNat

/-- One evenly spaced sample read amounts[(i + 1) * _width] (hydrex-fi.ts lines 179-184),
where _width = Math.floor((amounts.length - 1) / chunksCount). -/
def sampleAt (chunksCount : Nat) (amounts : List Int) (i : Nat) : Option Int :=
  jsIndex amounts
    (((i : Int) + 1) * Int.fdiv ((amounts.length : Int) - 1) (chunksCount : Int))

/-- The sample-point amounts (hydrex-fi.ts lines 177-185): one unit-amount sample followed by
chunksCount evenly spaced samples.  A `none` entry records a JS undefined read. -/
def chunkedAmounts (chunksCount : Nat) (uVol : Int) (amounts : List Int) :
    List (Option Int) :=
  some uVol :: (List.range chunksCount).map (sampleAt chunksCount amounts)

/-- The batched quote calldata (hydrex-fi.ts lines 196-206): one call per (pool, sample),
pools outermost. -/
def rpcCalldata (chunksCount : Nat) (uVol : Int) (amounts : List Int)
    (pools : List Pool) : List (Pool × Option Int) :=
  pools.flatMap (fun p => (chunkedAmounts chunksCount uVol amounts).map (fun a => (p, a)))

/-- Sequences the sample amounts; `none` models the TypeError thrown by amount.toString()
on an undefined sample amount while the calldata is being built. -/
def allSome : List (Option Int) → Option (List Int)
  | [] => some []
  | none :: _ => none
  | some x :: rest => (allSome rest).map (fun l => x :: l)

/-- Default-extraction of the sample amounts; equals the list sequenced by `allSome`
whenever every entry is present (used to state theorems about the non-throwing path). -/
def chunkedValsD (chunksCount : Nat) (uVol : Int) (amounts : List Int) : List Int :=
  (chunkedAmounts chunksCount uVol amounts).map (fun o => o.getD 0)

/-- One sample rate (hydrex-fi.ts lines 223-233): a successful call keeps its returned
value; a failed call yields the mock price when the whole batch failed, else zero. -/
def rateOf (allFailed isSELL : Bool) (chunkAmount : Int) (res : Option Int) : Int :=
  match res with
  | some v => v
  | none => if allFailed then getMockPriceForTesting chunkAmount isSELL else 0

/-- The per-pool rate vector _rates (hydrex-fi.ts lines 220-233); `offset` is
poolIndex * (number of samples). -/
def sampleRates (isSELL allFailed : Bool) (chunked : List Int) (results : List (Option Int))
    (offset : Nat) : List Int :=
  (List.range chunked.length).map
    (fun i => rateOf allFailed isSELL (chunked.getD i 0) (results.getD (offset + i) none))

/-- Modelled from the spec: linear value on one sampled segment, part of `interpolate`
(src/utils.ts, which is not included under src/); see spec section 4.3 step 7. -/
def segValue (x1 y1 x2 y2 a : Int) : Int :=
  if x2 = x1 then y1 else y1 + Int.tdiv ((y2 - y1) * (a - x1)) (x2 - x1)

/-- Modelled from the spec: `interpolate` (src/utils.ts, not part of src/) reconstructs an
output for a requested amount by monotone piecewise-linear interpolation over the sampled
curve, extrapolating out-of-range amounts from the nearest sampled segment
(spec section 4.3 step 7). -/
def interpAt : List Int → List Int → Int → Int
  | x1 :: x2 :: xs, y1 :: y2 :: ys, a =>
    if a ≤ x2 then segValue x1 y1 x2 y2 a else interpAt (x2 :: xs) (y2 :: ys) a
  | [x1], [y1], a => if x1 = 0 then 0 else Int.tdiv (y1 * a) x1
  | _, _, _ => 0

/-- Modelled from the spec: pointwise interpolation of the requested amounts; "the zero
requested amount always maps to output zero without a remote call"
(spec section 4.3 step 7 and section 8). -/
def interpolate (sampleAmounts sampleOuts amounts : List Int) (_side : SwapSide) : List Int :=
  amounts.map (fun a => if a = 0 then 0 else interpAt sampleAmounts sampleOuts a)

/-- One entry of the ExchangePrices result (hydrex-fi.ts lines 253-272); constant metadata
fields (exchange key, gas cost, fee flags) are omitted as they carry no claim content. -/
structure PoolPrices where
  prices : List Int
  unit : Int
  poolIdentifier : String
  poolAddress : String
deriving DecidableEq

/-- Per-pool result assembly (hydrex-fi.ts lines 220-272) at the default (all-zero)
transferFees, under which neither transfer-fee adjustment applies. -/
def poolResult (dexKey : String) (isSELL allFailed : Bool) (side : SwapSide)
    (amounts chunked : List Int) (results : List (Option Int))
    (poolIndex : Nat) (pool : Pool) : PoolPrices :=
  let offset := poolIndex * chunked.length
  let r := sampleRates isSELL allFailed chunked results offset
  { prices := interpolate (chunked.drop 1) (r.drop 1) amounts side
    unit := r.headD 0
    poolIdentifier := getPoolIdentifier dexKey pool.token0 pool.token1 pool.deployer
    poolAddress := pool.poolAddress }

/-- The unit sample volume 10^decimals of the relevant token (hydrex-fi.ts line 177). -/
def unitVolume (side : SwapSide) (srcToken destToken : Token) : Int :=
  10 ^ (if side == SwapSide.SELL then srcToken.decimals else destToken.decimals)

/-- getPricingFromRpc (hydrex-fi.ts lines 151-276) at the default (all-zero) transferFees.
`results` is the positionally aligned outcome of the batched tryAggregate call
(`none` = failed call, `some v` = success returning v).  `Except.error` models a thrown
JS exception (reading an undefined sample amount); the `Option` models the null result. -/
def getPricingFromRpc (dexKey : String) (chunksCount : Nat) (srcToken destToken : Token)
    (amounts : List Int) (side : SwapSide) (pools : List Pool)
    (results : List (Option Int)) : Except String (Option (List PoolPrices)) :=
  if pools = [] then Except.ok none
  else
    let isSELL := side == SwapSide.SELL
    let u := unitVolume side srcToken destToken
    match allSome (chunkedAmounts chunksCount u amounts) with
    | none => Except.error "TypeError: undefined sample amount"
    | some chunked =>
      let allFailed := results.all (fun r => r.isNone)
      Except.ok (some (pools.enum.map
        (fun kp => poolResult dexKey isSELL allFailed side amounts chunked results kp.1 kp.2)))

/-- getPricesVolume (hydrex-fi.ts lines 278-347): the try/catch boundary maps any thrown
error to null.  The optional limitPools filter is modelled as already applied to `pools`;
`srcFeeApplies` stands for isSrcTokenTransferFeeToBeExchanged(transferFees); `wrapETH` is
the dexHelper's native-asset wrapping, an external collaborator. -/
def getPricesVolume (dexKey : String) (chunksCount : Nat) (wrapETH : Token → Token)
    (srcToken destToken : Token) (amounts : List Int) (side : SwapSide)
    (srcFeeApplies : Bool) (pools : List Pool) (results : List (Option Int)) :
    Option (List PoolPrices) :=
  if srcFeeApplies && (side == SwapSide.BUY) then none
  else
    let s := wrapETH srcToken
    let d := wrapETH destToken
    if s.address.toLower = d.address.toLower then none
    else
      match getPricingFromRpc dexKey chunksCount s d amounts side pools results with
      | Except.error _ => none
      | Except.ok r => r

/-- getMockPoolsForTesting (hydrex-fi-factory.ts lines 234-260). -/
def getMockPoolsForTesting : List Pool :=
  [ { poolAddress := "0x82dbe18346a8656dbb5e76f74bf3ae279cc16b29"
      token0 := "0x4200000000000000000000000000000000000006"
      token1 := "0x833589fcd6edb6e08f4c7c32d4f71b54bda02913"
      deployer := NULL_ADDRESS
      tvlUSD := 283410973 / 1000 },
    { poolAddress := "0x3f9b863ef4b295d6ba370215bcca3785fcc44f44"
      token0 := "0x4200000000000000000000000000000000000006"
      token1 := "0xcbb7c0000ab88b473b1f5afd9ef808440eed33bf"
      deployer := NULL_ADDRESS
      tvlUSD := 401457372 / 1000 },
    { poolAddress := "0xd604cf300a4ae4345426df42ffb296aa35b4bef2"
      token0 := "0x50c5725949a6f0c72e6c4a641f24049a917db0cb"
      token1 := "0x833589fcd6edb6e08f4c7c32d4f71b54bda02913"
      deployer := NULL_ADDRESS
      tvlUSD := 206389885 / 1000 } ]

/-- True when a subgraph error message signals the block-unavailable condition
(hydrex-fi-factory.ts lines 173-176); any other error is rethrown (line 187). -/
def isBlockUnavailableError (msg : String) : Bool :=
  decide ("missing block".toList <:+: msg.toList)
    || decide ("not yet available".toList <:+: msg.toList)

/-- initialize (hydrex-fi-factory.ts lines 39-48).  `queryResult` is the awaited outcome of
queryAllAvailablePools: `Except.error` is a thrown subgraph error that is not the
block-unavailable condition, since block-unavailable errors are retried internally against
the latest block instead of being rethrown.  The catch block assigns the mock seed set. -/
def initRegistry (_priorPools : List Pool) (queryResult : Except String (List Pool)) :
    List Pool :=
  match queryResult with
  | Except.ok ps => ps
  | Except.error _ => getMockPoolsForTesting

/-- The pair filter (hydrex-fi-factory.ts lines 80-84). -/
def pairMatches (srcAddress destAddress : String) (p : Pool) : Bool :=
  (p.token0 == srcAddress && p.token1 == destAddress)
    || (p.token0 == destAddress && p.token1 == srcAddress)

/-- Descending-TVL ordering used by the comparator at hydrex-fi-factory.ts lines 85-93
(it compares b.tvlUSD - a.tvlUSD and returns positive on a tie, keeping input order). -/
def tvlDesc (a b : Pool) : Prop := b.tvlUSD ≤ a.tvlUSD

instance : DecidableRel tvlDesc :=
  fun a b => inferInstanceAs (Decidable (b.tvlUSD ≤ a.tvlUSD))

instance : IsTotal Pool tvlDesc := ⟨fun a b => le_total b.tvlUSD a.tvlUSD⟩

instance : IsTrans Pool tvlDesc := ⟨fun _ _ _ h1 h2 => le_trans h2 h1⟩

/-- getAvailablePoolsForPair (hydrex-fi-factory.ts lines 66-94).  Array.prototype.sort with
the source's comparator (sign of b.tvlUSD - a.tvlUSD, positive on tie) is modelled as a
stable sort by descending tvlUSD: ties keep input order, matching the engine behaviour the
source relies on.  `wrapETH` is the dexHelper's address wrapping. -/
def getAvailablePoolsForPair (wrapETH : String → String) (pools : List Pool)
    (srcToken destToken : String) : List Pool :=
  let s := (wrapETH srcToken).toLower
  let d := (wrapETH destToken).toLower
  List.insertionSort tvlDesc (pools.filter (pairMatches s d))

/-- Decoded factory log (hydrex-fi-factory.ts handlers registered at lines 35-36). -/
inductive FactoryEvent
  | Pool (token0 token1 : String) (pool : Option String)
  | CustomPool (token0 token1 deployer : String) (pool : Option String)
  | Other (name : String)
deriving DecidableEq

/-- handleNewPool (hydrex-fi-factory.ts lines 200-215): appends a pool with the neutral
deployer; skipped when args.pool is absent or empty (the JS falsy check). -/
def handleNewPool (pools : List Pool) (token0 token1 : String) (poolArg : Option String) :
    List Pool :=
  let poolAddress := (poolArg.map String.toLower).getD ""
  if poolAddress = "" then pools
  else pools ++ [{ poolAddress := poolAddress, token0 := token0.toLower,
                   token1 := token1.toLower, deployer := NULL_ADDRESS, tvlUSD := 0 }]

/-- handleNewCustomPool (hydrex-fi-factory.ts lines 217-232). -/
def handleNewCustomPool (pools : List Pool) (token0 token1 deployer : String)
    (poolArg : Option String) : List Pool :=
  let poolAddress := (poolArg.map String.toLower).getD ""
  if poolAddress = "" then pools
  else pools ++ [{ poolAddress := poolAddress, token0 := token0.toLower,
                   token1 := token1.toLower, deployer := deployer.toLower, tvlUSD := 0 }]

/-- Handler dispatch (hydrex-fi-factory.ts lines 59-61): unrecognized names take no action. -/
def applyFactoryEvent (pools : List Pool) : FactoryEvent → List Pool
  | FactoryEvent.Pool t0 t1 pa => handleNewPool pools t0 t1 pa
  | FactoryEvent.CustomPool t0 t1 dep pa => handleNewCustomPool pools t0 t1 dep pa
  | FactoryEvent.Other _ => pools

/-- HydrexFiFactory.processLog (hydrex-fi-factory.ts lines 54-64).  `decoded` is the outcome
of logDecoder (`Except.error` = parseLog threw on a malformed log).  There is no try/catch
in this method, so a decode error propagates to the caller.  The FactoryState it returns is
always the empty record; the observable effect is the updated pool list. -/
def factoryProcessLog (pools : List Pool) (decoded : Except String FactoryEvent) :
    Except String (List Pool) :=
  match decoded with
  | Except.error e => Except.error e
  | Except.ok ev => Except.ok (applyFactoryEvent pools ev)

/-- A decoded JS event field: absent (undefined), present but malformed (so that its numeric
coercion throws), or carrying a well-formed numeric value. -/
inductive JsField
  | absent
  | malformed
  | val (n : Int)
deriving DecidableEq

/-- PoolState (types.ts lines 36-47); numeric fields as unbounded integers. -/
structure PoolState where
  sqrtPriceX96 : Int
  liquidity : Int
  tick : Int
  feeGrowthGlobal0X128 : Int
  feeGrowthGlobal1X128 : Int
deriving DecidableEq

/-- The tick update Number(event.args.tick || state.tick) in handleSwap: JS || falls back on
every falsy value, so an absent, malformed (NaN) or zero event tick keeps the prior tick. -/
def newTick (tickArg : JsField) (prior : Int) : Int :=
  match tickArg with
  | JsField.val n => if n = 0 then prior else n
  | _ => prior

/-- handleSwap (event-pool module lines 298-312).
BigInt(args.sqrtPriceX96?.toString() || state.sqrtPriceX96): an absent field keeps the prior
value; a malformed one makes BigInt throw and the surrounding catch returns the whole state
unchanged; a carried value (zero included, since the string is truthy) overwrites. -/
def handleSwap (sqrtPriceArg tickArg : JsField) (s : PoolState) : PoolState :=
  match sqrtPriceArg with
  | JsField.malformed => s
  | JsField.absent => { s with tick := newTick tickArg s.tick }
  | JsField.val n => { s with sqrtPriceX96 := n, tick := newTick tickArg s.tick }

/-- BigInt(args.liquidity?.toString() || zero literal): absent reads as zero; a malformed
field makes BigInt throw. -/
def jsDeltaArg : JsField → Option Int
  | JsField.absent => some 0
  | JsField.malformed => none
  | JsField.val n => some n

/-- handleMint (event-pool module lines 314-328). -/
def handleMint (liquidityArg : JsField) (s : PoolState) : PoolState :=
  match jsDeltaArg liquidityArg with
  | none => s
  | some d => { s with liquidity := s.liquidity + d }

/-- handleBurn (event-pool module lines 330-344): unchecked integer subtraction. -/
def handleBurn (liquidityArg : JsField) (s : PoolState) : PoolState :=
  match jsDeltaArg liquidityArg with
  | none => s
  | some d => { s with liquidity := s.liquidity - d }

/-- handleCollect (event-pool module lines 346-356): a no-op. -/
def handleCollect (s : PoolState) : PoolState := s

/-- Decoded pool log (event-pool module handlers registered at lines 205-208). -/
inductive PoolEvent
  | Swap (sqrtPriceX96 tick : JsField)
  | Mint (liquidity : JsField)
  | Burn (liquidity : JsField)
  | Collect
  | Other (name : String)
deriving DecidableEq

/-- HydrexFiEventPool.processLog (event-pool module lines 220-234): a decode failure is
caught (catchParseLogError) and an unrecognized event name falls through; both paths
return null and never raise. -/
def poolProcessLog (s : PoolState) (decoded : Except String PoolEvent) : Option PoolState :=
  match decoded with
  | Except.error _ => none
  | Except.ok ev =>
    match ev with
    | PoolEvent.Swap sp tk => some (handleSwap sp tk s)
    | PoolEvent.Mint l => some (handleMint l s)
    | PoolEvent.Burn l => some (handleBurn l s)
    | PoolEvent.Collect => some (handleCollect s)
    | PoolEvent.Other _ => none

/-- A small fixture pool for concrete witnesses and counterexamples. -/
def testPool : Pool :=
  { poolAddress := "0xpool", token0 := "0xa", token1 := "0xb",
    deployer := NULL_ADDRESS, tvlUSD := 1 }

/-- A fixture pool distinct from every mock pool. -/
def priorPool : Pool :=
  { poolAddress := "0xprior", token0 := "0xt0", token1 := "0xt1",
    deployer := NULL_ADDRESS, tvlUSD := 1 }

/-- A fixture pool state with distinctive field values. -/
def swapTestState : PoolState :=
  { sqrtPriceX96 := 11, liquidity := 7, tick := 5,
    feeGrowthGlobal0X128 := 3, feeGrowthGlobal1X128 := 4 }

/-- WETH on Base, 18 decimals. -/
def tokenWETH : Token :=
  { address := "0x4200000000000000000000000000000000000006", decimals := 18 }

/-- USDC on Base, 6 decimals. -/
def tokenUSDC : Token :=
  { address := "0x833589fcd6edb6e08f4c7c32d4f71b54bda02913", decimals := 6 }

/-- A small fixture token (1 decimal) keeping concrete evaluations light. -/
def tokenA1 : Token := { address := "0xaa", decimals := 1 }

/-- A second small fixture token (1 decimal). -/
def tokenB1 : Token := { address := "0xbb", decimals := 1 }

/-- The sample list always has chunksCount + 1 entries. -/
theorem chunkedAmounts_length (c : Nat) (u : Int) (amounts : List Int) :
    (chunkedAmounts c u amounts).length = c + 1 := by
  simp only [chunkedAmounts, List.length_cons, List.length_map, List.length_range]

/-- Math.floor((len - 1) / c) agrees with Nat division when the vector is nonempty. -/
theorem fdiv_len_sub_one (len c : Nat) (hlen : 1 ≤ len) :
    Int.fdiv ((len : Int) - 1) (c : Int) = (((len - 1) / c : Nat) : Int) := by
  have h : ((len : Int) - 1) = (((len - 1 : Nat)) : Int) := by omega
  rw [h]
  exact (Int.ofNat_fdiv _ _).symm

/-- Every evenly spaced sample index stays strictly below the vector length. -/
theorem sampleIndex_lt (c len : Nat) (hlen : 1 ≤ len) (i : Nat) (hi : i < c) :
    (i + 1) * ((len - 1) / c) < len := by
  have h1 : (i + 1) * ((len - 1) / c) ≤ c * ((len - 1) / c) :=
    Nat.mul_le_mul_right _ hi
  have h2 : c * ((len - 1) / c) ≤ len - 1 := by
    rw [Nat.mul_comm]
    exact Nat.div_mul_le_self _ _
  omega

/-- On a nonempty vector the JS sample read is an in-range list read at a Nat index. -/
theorem sampleAt_eq_get? (c : Nat) (amounts : List Int) (ha : amounts ≠ [])
    (i : Nat) :
    sampleAt c amounts i = amounts.get? ((i + 1) * ((amounts.length - 1) / c)) := by
  have hlen : 1 ≤ amounts.length := List.length_pos.mpr ha
  rw [sampleAt, fdiv_len_sub_one _ _ hlen]
  have hcast : ((i : Int) + 1) * (((amounts.length - 1) / c : Nat) : Int)
      = ((((i + 1) * ((amounts.length - 1) / c) : Nat)) : Int) := by
    push_cast
    ring
  rw [hcast, jsIndex, if_neg (by omega), Int.toNat_ofNat]

/-- Under a positive chunk count and a nonempty amount vector, every sample amount is
present (no JS undefined read, so calldata construction does not throw). -/
theorem chunkedAmounts_all_some (c : Nat) (u : Int) (amounts : List Int)
    (ha : amounts ≠ []) :
    ∀ o ∈ chunkedAmounts c u amounts, o.isSome := by
  intro o ho
  simp only [chunkedAmounts, List.mem_cons, List.mem_map, List.mem_range] at ho
  rcases ho with rfl | ⟨i, hi, rfl⟩
  · rfl
  · rw [sampleAt_eq_get? c amounts ha i]
    have hlen : 1 ≤ amounts.length := List.length_pos.mpr ha
    have hidx := sampleIndex_lt c amounts.length hlen i hi
    simp [List.get?_eq_getElem?, List.getElem?_eq_getElem hidx]

/-- The batched calldata length: one call per (pool, sample). -/
theorem rpcCalldata_length (c : Nat) (u : Int) (amounts : List Int) (pools : List Pool) :
    (rpcCalldata c u amounts pools).length = pools.length * (c + 1) := by
  induction pools with
  | nil => simp [rpcCalldata]
  | cons p ps ih =>
    simp only [rpcCalldata, List.flatMap_cons, List.length_append, List.length_map,
      chunkedAmounts_length, List.length_cons] at *
    rw [ih]
    ring

/-- Membership in the batched calldata is membership of the pool and of the sample. -/
theorem mem_rpcCalldata (c : Nat) (u : Int) (amounts : List Int) (pools : List Pool)
    (pr : Pool × Option Int) :
    pr ∈ rpcCalldata c u amounts pools ↔
      pr.1 ∈ pools ∧ pr.2 ∈ chunkedAmounts c u amounts := by
  obtain ⟨p0, a0⟩ := pr
  simp only [rpcCalldata, List.mem_flatMap, List.mem_map, Prod.mk.injEq]
  constructor
  · rintro ⟨p, hp, a, haa, rfl, rfl⟩
    exact ⟨hp, haa⟩
  · rintro ⟨hp, haa⟩
    exact ⟨p0, hp, a0, haa, rfl, rfl⟩

/-- C2: for every nonempty requested amount vector and every candidate pool set, the batched
quote calldata holds exactly chunksCount + 1 remote calls per pool — one unit-amount sample
followed by chunksCount samples taken at the evenly spaced indices
(i+1) * floor((len(amounts)-1)/chunksCount) of the requested vector — independent of the
requested vector's length, and every such call carries a present (non-undefined) amount. -/
theorem rpcCalldata_bounded (c : Nat) (u : Int) (amounts : List Int) (pools : List Pool)
    (_hc : 0 < c) (ha : amounts ≠ []) :
    (rpcCalldata c u amounts pools).length = pools.length * (c + 1) ∧
    (chunkedAmounts c u amounts).head? = some (some u) ∧
    (∀ pr ∈ rpcCalldata c u amounts pools, pr.2.isSome) ∧
    (∀ i : Nat, i < c →
      (chunkedAmounts c u amounts).get? (i + 1) =
        some (amounts.get? ((i + 1) * ((amounts.length - 1) / c)))) := by
  refine ⟨rpcCalldata_length c u amounts pools, rfl, ?_, ?_⟩
  · intro pr hpr
    exact chunkedAmounts_all_some c u amounts ha pr.2
      ((mem_rpcCalldata c u amounts pools pr).mp hpr).2
  · intro i hi
    rw [← sampleAt_eq_get? c amounts ha i]
    simp [chunkedAmounts, List.get?_eq_getElem?, List.getElem?_range hi]

/-- C2 witness: with chunksCount = 1 and the two-entry request [0, 5] against one pool, the
batch holds exactly 1 * (1 + 1) calls and opens with the unit sample. -/
theorem rpcCalldata_bounded_witness :
    (rpcCalldata 1 10 [0, 5] [testPool]).length = 1 * (1 + 1) ∧
    (chunkedAmounts 1 10 [0, 5]).head? = some (some 10) := by
  obtain ⟨h1, h2, -, -⟩ := rpcCalldata_bounded 1 10 [0, 5] [testPool] (by decide) (by decide)
  exact ⟨h1, h2⟩

/-- Sequencing succeeds exactly with the default-extracted values when every sample is
present. -/
theorem allSome_eq_of_isSome (l : List (Option Int)) (h : ∀ o ∈ l, o.isSome) :
    allSome l = some (l.map (fun o => o.getD 0)) := by
  induction l with
  | nil => rfl
  | cons o rest ih =>
    cases o with
    | none => exact absurd (h none (List.mem_cons_self _ _)) (by simp)
    | some x =>
      simp only [allSome, ih (fun o ho => h o (List.mem_cons_of_mem _ ho))]
      rfl

/-- Every positional read of an all-failed result batch yields a failure. -/
theorem getD_none_of_all_none (results : List (Option Int))
    (h : ∀ r ∈ results, r = none) (k : Nat) : results.getD k none = none := by
  rw [List.getD_eq_getElem?_getD]
  cases hk : results[k]? with
  | none => rfl
  | some r =>
    have hr := h r (List.getElem?_mem hk)
    simp [hr]

/-- Mapping a function over positional default reads of a list is mapping over the list. -/
theorem map_range_getD (g : Int → Int) (l : List Int) :
    (List.range l.length).map (fun i => g (l.getD i 0)) = l.map g := by
  induction l with
  | nil => rfl
  | cons x xs ih =>
    rw [List.length_cons, List.range_succ_eq_map, List.map_cons, List.map_map,
      List.map_cons]
    refine congrArg₂ List.cons rfl ?_
    rw [← ih]
    refine List.map_congr_left ?_
    intro i _
    rfl

/-- On a nonempty pool set and a nonempty amount vector, getPricingFromRpc never throws and
returns the per-pool results assembled from the sample rates. -/
theorem getPricingFromRpc_eq (dexKey : String) (c : Nat) (srcToken destToken : Token)
    (amounts : List Int) (side : SwapSide) (pools : List Pool)
    (results : List (Option Int)) (ha : amounts ≠ []) (hp : pools ≠ []) :
    getPricingFromRpc dexKey c srcToken destToken amounts side pools results =
      Except.ok (some (pools.enum.map (fun kp =>
        poolResult dexKey (side == SwapSide.SELL) (results.all (fun r => r.isNone)) side
          amounts (chunkedValsD c (unitVolume side srcToken destToken) amounts)
          results kp.1 kp.2))) := by
  have hval := chunkedAmounts_all_some c (unitVolume side srcToken destToken) amounts ha
  have hseq := allSome_eq_of_isSome _ hval
  simp only [getPricingFromRpc]
  rw [if_neg hp, hseq]
  rfl

/-- C1: provided the batch exists (pools and requested amounts nonempty), getPricingFromRpc
returns a non-null per-pool result built from the sample rates; if every remote quote call
failed, every sample rate is the fixed linear mock approximation of its sample amount; if
only a proper subset failed, exactly the failed samples are replaced by zero output while
successful samples keep their returned values, and the interpolated curve is still built
from those rates. -/
theorem getPricingFromRpc_failure_policy (dexKey : String) (c : Nat)
    (srcToken destToken : Token) (amounts : List Int) (side : SwapSide) (pools : List Pool)
    (results : List (Option Int)) (_hc : 0 < c) (ha : amounts ≠ []) (hp : pools ≠ []) :
    getPricingFromRpc dexKey c srcToken destToken amounts side pools results =
      Except.ok (some (pools.enum.map (fun kp =>
        poolResult dexKey (side == SwapSide.SELL) (results.all (fun r => r.isNone)) side
          amounts (chunkedValsD c (unitVolume side srcToken destToken) amounts)
          results kp.1 kp.2))) ∧
    ((∀ r ∈ results, r = none) → ∀ (offset : Nat) (chunked : List Int),
      sampleRates (side == SwapSide.SELL) true chunked results offset =
        chunked.map (fun a => getMockPriceForTesting a (side == SwapSide.SELL))) ∧
    ((∃ r ∈ results, r ≠ none) →
      results.all (fun r => r.isNone) = false ∧
      ∀ (offset i : Nat) (chunked : List Int), i < chunked.length →
        (sampleRates (side == SwapSide.SELL) false chunked results offset).get? i =
          some ((results.getD (offset + i) none).getD 0)) := by
  refine ⟨getPricingFromRpc_eq dexKey c srcToken destToken amounts side pools results
    ha hp, ?_, ?_⟩
  · intro hall offset chunked
    rw [sampleRates]
    have hnone : ∀ k, results.getD k none = none := getD_none_of_all_none results hall
    simp only [hnone]
    have hrate : ∀ a, rateOf true (side == SwapSide.SELL) a none
        = getMockPriceForTesting a (side == SwapSide.SELL) := fun a => rfl
    simp only [hrate]
    exact map_range_getD (fun a => getMockPriceForTesting a (side == SwapSide.SELL)) chunked
  · intro hex
    constructor
    · rcases hex with ⟨r, hr, hne⟩
      cases hall : results.all (fun r => r.isNone) with
      | false => rfl
      | true =>
        have hiso := List.all_eq_true.mp hall r hr
        cases r with
        | none => exact absurd rfl hne
        | some v => simp at hiso
    · intro offset i chunked hi
      rw [sampleRates, List.get?_eq_getElem?, List.getElem?_map, List.getElem?_range hi,
        Option.map_some']
      cases hres : results.getD (offset + i) none <;> rfl

/-- C1 witness: with one pool and the two-entry request [0, 5], an all-failed batch still
produces a non-null result whose sample rates are the mock prices, and a half-failed batch
keeps the successful value and zeroes the failed sample. -/
theorem getPricingFromRpc_failure_policy_witness :
    getPricingFromRpc "HydrexFi" 1 tokenWETH tokenUSDC [0, 5] SwapSide.SELL [testPool]
        [none, none] =
      Except.ok (some ([testPool].enum.map (fun kp =>
        poolResult "HydrexFi" (SwapSide.SELL == SwapSide.SELL)
          ([(none : Option Int), none].all (fun r => r.isNone)) SwapSide.SELL
          [0, 5] (chunkedValsD 1 (unitVolume SwapSide.SELL tokenWETH tokenUSDC) [0, 5])
          [none, none] kp.1 kp.2))) ∧
    sampleRates (SwapSide.SELL == SwapSide.SELL) true
        (chunkedValsD 1 (unitVolume SwapSide.SELL tokenWETH tokenUSDC) [0, 5])
        [none, none] 0 =
      (chunkedValsD 1 (unitVolume SwapSide.SELL tokenWETH tokenUSDC) [0, 5]).map
        (fun a => getMockPriceForTesting a (SwapSide.SELL == SwapSide.SELL)) ∧
    (sampleRates (SwapSide.SELL == SwapSide.SELL) false
        (chunkedValsD 1 (unitVolume SwapSide.SELL tokenWETH tokenUSDC) [0, 5])
        [some 3, none] 0).get? 1 =
      some ((([some (3 : Int), none].getD (0 + 1) none)).getD 0) := by
  refine ⟨?_, ?_, ?_⟩
  · exact (getPricingFromRpc_failure_policy "HydrexFi" 1 tokenWETH tokenUSDC [0, 5]
      SwapSide.SELL [testPool] [none, none] (by decide) (by decide) (by decide)).1
  · exact (getPricingFromRpc_failure_policy "HydrexFi" 1 tokenWETH tokenUSDC [0, 5]
      SwapSide.SELL [testPool] [none, none] (by decide) (by decide) (by decide)).2.1
      (by decide) 0 _
  · exact ((getPricingFromRpc_failure_policy "HydrexFi" 1 tokenWETH tokenUSDC [0, 5]
      SwapSide.SELL [testPool] [some 3, none] (by decide) (by decide) (by decide)).2.2
      ⟨some 3, by decide, by decide⟩).2 0 1 _ (by decide)

/-- C6 counterexample: with the configured chunksCount = 10 and the two-entry request
[0, 10^18], the sample width floor((2-1)/10) = 0 makes every evenly spaced sample read
index 0 of the requested vector, so the batch contains remote quote calls carrying the
zero amount — contradicting "no remote quote call is ever issued for the zero amount". -/
theorem zero_amount_sample_queried :
    (testPool, (some 0 : Option Int)) ∈ rpcCalldata 10 (10 ^ 18) [0, 10 ^ 18] [testPool] := by
  decide

/-- C6 (amended): for every strictly increasing requested amount vector that starts with
its zero entry and has at least chunksCount + 1 entries, no remote quote call is issued for
the zero amount, and the output produced for the zero entry is exactly zero for every pool
(the interpolation model maps the zero request to zero per the spec).  For shorter vectors
the zero sample width makes every chunk read the leading zero entry, so zero-amount calls
are issued — see the counterexample. -/
theorem no_zero_amount_sample (c : Nat) (u : Int) (amounts : List Int) (pools : List Pool)
    (hc : 0 < c) (hu : 0 < u) (hlen : c + 1 ≤ amounts.length)
    (h0 : amounts.head? = some 0) (hmono : amounts.Pairwise (· < ·)) :
    (∀ pr ∈ rpcCalldata c u amounts pools, pr.2 ≠ some 0) ∧
    (∀ (dexKey : String) (srcToken destToken : Token) (side : SwapSide)
        (results : List (Option Int)) (ps : List PoolPrices),
      getPricingFromRpc dexKey c srcToken destToken amounts side pools results =
        Except.ok (some ps) →
      ∀ r ∈ ps, r.prices.head? = some 0) := by
  have ha : amounts ≠ [] := by
    intro h
    rw [h] at hlen
    simp at hlen
  have hlen1 : 1 ≤ amounts.length := by omega
  constructor
  · intro pr hpr
    have hmem := ((mem_rpcCalldata c u amounts pools pr).mp hpr).2
    simp only [chunkedAmounts, List.mem_cons, List.mem_map, List.mem_range] at hmem
    rcases hmem with h2 | ⟨i, hi, h2⟩
    · rw [h2]
      intro hcontr
      injection hcontr with hval
      omega
    · rw [← h2, sampleAt_eq_get? c amounts ha i, List.get?_eq_getElem?]
      intro hcontr
      have hw1 : 1 ≤ (amounts.length - 1) / c := (Nat.one_le_div_iff hc).mpr (by omega)
      have hlt : (i + 1) * ((amounts.length - 1) / c) < amounts.length :=
        sampleIndex_lt c amounts.length hlen1 i hi
      have hpos : 1 ≤ (i + 1) * ((amounts.length - 1) / c) :=
        le_trans hw1 (Nat.le_mul_of_pos_left _ (by omega))
      have hlt0 : 0 < amounts.length := by omega
      have h0q : amounts[0]? = some 0 := by
        rw [← List.head?_eq_getElem?]
        exact h0
      rw [List.getElem?_eq_getElem hlt] at hcontr
      rw [List.getElem?_eq_getElem hlt0] at h0q
      have hgt := List.pairwise_iff_getElem.mp hmono 0
        ((i + 1) * ((amounts.length - 1) / c)) hlt0 hlt (by omega)
      rw [Option.some_inj] at hcontr h0q
      omega
  · intro dexKey srcToken destToken side results ps hok r hr
    by_cases hp : pools = []
    · subst hp
      simp [getPricingFromRpc] at hok
    · rw [getPricingFromRpc_eq dexKey c srcToken destToken amounts side pools results
        ha hp] at hok
      have hps := (Option.some_inj.mp (Except.ok.inj hok)).symm
      subst hps
      rcases List.mem_map.mp hr with ⟨kp, -, rfl⟩
      simp [poolResult, interpolate, List.head?_map, h0]

/-- C6 witness: with chunksCount = 1, unit amount 10 and the request [0, 5] (length = 2 =
chunksCount + 1, strictly increasing, leading zero), no batched call carries the zero
amount, and the per-pool result interpolates output zero for the zero entry. -/
theorem no_zero_amount_sample_witness :
    (testPool, (some 0 : Option Int)) ∉ rpcCalldata 1 10 [0, 5] [testPool] ∧
    (poolResult "HydrexFi" (SwapSide.SELL == SwapSide.SELL)
        ([some (3 : Int), some 4].all (fun r => r.isNone)) SwapSide.SELL [0, 5]
        (chunkedValsD 1 (unitVolume SwapSide.SELL tokenA1 tokenB1) [0, 5])
        [some 3, some 4] 0 testPool).prices.head? = some 0 := by
  obtain ⟨h1, h2⟩ := no_zero_amount_sample 1 10 [0, 5] [testPool] (by decide) (by decide)
    (by decide) (by decide) (by decide)
  constructor
  · intro hmem
    exact h1 (testPool, some 0) hmem rfl
  · have hne1 : ([0, 5] : List Int) ≠ [] := by decide
    have hne2 : [testPool] ≠ [] := by
      intro h
      exact List.cons_ne_nil _ _ h
    have heq := getPricingFromRpc_eq "HydrexFi" 1 tokenA1 tokenB1 [0, 5] SwapSide.SELL
      [testPool] [some 3, some 4] hne1 hne2
    have h3 := h2 "HydrexFi" tokenA1 tokenB1 SwapSide.SELL [some 3, some 4] _ heq
    apply h3
    have henum : [testPool].enum = [(0, testPool)] := rfl
    rw [henum, List.map_cons]
    exact List.mem_cons_self _ _

/-- C10: for all token addresses a and b and every deployer address d,
getPoolIdentifier(a, b, d) equals getPoolIdentifier(b, a, d): the two token addresses are
canonically sorted by _sortTokens before being joined, so a pool's identifier is independent
of trade direction. -/
theorem getPoolIdentifier_comm (dexKey a b d : String) :
    getPoolIdentifier dexKey a b d = getPoolIdentifier dexKey b a d := by
  unfold getPoolIdentifier
  rcases lt_trichotomy a b with h | h | h
  · rw [ _sortTokens, _sortTokens, if_pos h, if_neg (not_lt.mpr h.le)]
  · rw [h]
  · rw [ _sortTokens, _sortTokens, if_neg (not_lt.mpr h.le), if_pos h]

/-- C9: handleBurn applies the Burn event's liquidity delta as exact integer subtraction on
the prior liquidity with no clamp or underflow check, leaving every other field unchanged,
so the stored liquidity becomes negative whenever the delta exceeds the prior liquidity. -/
theorem handleBurn_unchecked_subtraction (s : PoolState) (d : Int) :
    handleBurn (JsField.val d) s = { s with liquidity := s.liquidity - d } ∧
    (s.liquidity < d → (handleBurn (JsField.val d) s).liquidity < 0) := by
  refine ⟨rfl, fun h => ?_⟩
  show s.liquidity - d < 0
  omega

/-- C9 witness: burning 9 units of liquidity from a pool state holding 7 drives the stored
liquidity to the negative value -2. -/
theorem handleBurn_unchecked_subtraction_witness :
    handleBurn (JsField.val 9) swapTestState =
      { swapTestState with liquidity := swapTestState.liquidity - 9 } ∧
    (handleBurn (JsField.val 9) swapTestState).liquidity < 0 := by
  obtain ⟨h1, h2⟩ := handleBurn_unchecked_subtraction swapTestState 9
  exact ⟨h1, h2 (by decide)⟩

/-- C8 counterexample: a Swap event carrying a well-formed zero tick does not overwrite the
tick; the JS falsy check (args.tick || state.tick) conflates a carried zero with an absent
field and keeps the prior tick 5, while the claim requires the stored tick to become 0. -/
theorem handleSwap_zero_tick_kept :
    (handleSwap (JsField.val 22) (JsField.val 0) swapTestState).tick = 5 ∧ (5 : Int) ≠ 0 := by
  exact ⟨rfl, by decide⟩

/-- C8 (amended): handleSwap overwrites sqrtPriceX96 with a carried value and tick with a
carried nonzero value; the tick falls back to the prior value when the event tick is absent,
malformed, or zero (the falsy check conflates zero with absence); sqrtPriceX96 falls back to
the prior value when absent, and a malformed sqrtPriceX96 returns the whole state unchanged;
liquidity and both fee-growth accumulators are never modified. -/
theorem handleSwap_characterization (sp tk : JsField) (s : PoolState) :
    ((handleSwap sp tk s).liquidity = s.liquidity ∧
     (handleSwap sp tk s).feeGrowthGlobal0X128 = s.feeGrowthGlobal0X128 ∧
     (handleSwap sp tk s).feeGrowthGlobal1X128 = s.feeGrowthGlobal1X128) ∧
    (∀ n : Int, sp = JsField.val n → (handleSwap sp tk s).sqrtPriceX96 = n) ∧
    (sp = JsField.absent → (handleSwap sp tk s).sqrtPriceX96 = s.sqrtPriceX96) ∧
    (sp = JsField.malformed → handleSwap sp tk s = s) ∧
    (∀ n : Int, n ≠ 0 → sp ≠ JsField.malformed → tk = JsField.val n →
        (handleSwap sp tk s).tick = n) ∧
    ((tk = JsField.absent ∨ tk = JsField.malformed ∨ tk = JsField.val 0) →
        (handleSwap sp tk s).tick = s.tick) := by
  refine ⟨?_, ?_, ?_, ?_, ?_, ?_⟩
  · cases sp <;> simp [handleSwap]
  · intro n h; subst h; rfl
  · intro h; subst h; rfl
  · intro h; subst h; rfl
  · intro n hn _ htk
    subst htk
    cases sp <;> simp_all [handleSwap, newTick]
  · intro h
    rcases h with h | h | h <;> subst h <;> cases sp <;> simp [handleSwap, newTick]

/-- C8 witness: a Swap event carrying sqrtPriceX96 = 22 and tick = 9 overwrites both fields
and leaves liquidity and the fee-growth accumulators untouched. -/
theorem handleSwap_characterization_witness :
    (handleSwap (JsField.val 22) (JsField.val 9) swapTestState).sqrtPriceX96 = 22 ∧
    (handleSwap (JsField.val 22) (JsField.val 9) swapTestState).tick = 9 ∧
    (handleSwap (JsField.val 22) (JsField.val 9) swapTestState).liquidity =
      swapTestState.liquidity := by
  obtain ⟨hfix, hsp, -, -, htick, -⟩ :=
    handleSwap_characterization (JsField.val 22) (JsField.val 9) swapTestState
  exact ⟨hsp 22 rfl, htick 9 (by decide) (by decide) rfl, hfix.1⟩

/-- C7 counterexample: the factory subscriber's processLog has no try/catch, so a log whose
decoding fails propagates the decode exception to the caller instead of being dropped with
the state unchanged. -/
theorem factoryProcessLog_decode_error_escapes :
    factoryProcessLog [] (Except.error "no matching event") =
      Except.error "no matching event" := rfl

/-- C7 (amended): the pool-state subscriber never lets a decode exception escape — a log
whose decoded event name is unrecognized produces no state change (processLog returns null)
and a malformed log that fails decoding is caught with null returned; the factory subscriber
likewise produces no pool-set change for an unrecognized event name, but a malformed log
that fails decoding propagates the decode exception out of its processLog. -/
theorem processLog_error_containment (s : PoolState) (e : String) (evName : String)
    (pools : List Pool) :
    poolProcessLog s (Except.error e) = none ∧
    poolProcessLog s (Except.ok (PoolEvent.Other evName)) = none ∧
    factoryProcessLog pools (Except.ok (FactoryEvent.Other evName)) = Except.ok pools ∧
    factoryProcessLog pools (Except.error e) = Except.error e :=
  ⟨rfl, rfl, rfl, rfl⟩

/-- C4 counterexample: a bulk-load failure with a remote error that is not the
block-unavailability condition ("connection refused" contains neither "missing block" nor
"not yet available") does not leave the previously stored pool set intact: initialize
overwrites it with the fixed mock seed set. -/
theorem initRegistry_error_discards_prior :
    isBlockUnavailableError "connection refused" = false ∧
    initRegistry [priorPool] (Except.error "connection refused") = getMockPoolsForTesting ∧
    initRegistry [priorPool] (Except.error "connection refused") ≠ [priorPool] := by
  refine ⟨by decide, rfl, by decide⟩

/-- Stability of orderedInsert for the descending-TVL order: the sublist of pools carrying a
given TVL value gains the inserted pool at its front exactly when that pool carries the
value, because insertion only passes over strictly larger TVLs. -/
theorem filter_orderedInsert_tvl (t : ℚ) (p : Pool) (l : List Pool) :
    (List.orderedInsert tvlDesc p l).filter (fun q => decide (q.tvlUSD = t)) =
      if p.tvlUSD = t then p :: l.filter (fun q => decide (q.tvlUSD = t))
      else l.filter (fun q => decide (q.tvlUSD = t)) := by
  induction l with
  | nil =>
    by_cases hp : p.tvlUSD = t <;> simp [List.orderedInsert, hp]
  | cons y ys ih =>
    rw [List.orderedInsert]
    by_cases hr : tvlDesc p y
    · rw [if_pos hr]
      by_cases hp : p.tvlUSD = t <;> simp [List.filter_cons, hp]
    · rw [if_neg hr, List.filter_cons]
      by_cases hy : y.tvlUSD = t
      · have hp : ¬ p.tvlUSD = t := by
          intro hpt
          exact hr (le_of_eq (by rw [hy, hpt]))
        simp [hy, hp, ih, List.filter_cons]
      · by_cases hp : p.tvlUSD = t <;> simp [hy, hp, ih, List.filter_cons]

/-- Stability of the whole insertion sort: sorting by descending TVL does not reorder pools
that share a TVL value. -/
theorem filter_insertionSort_tvl (t : ℚ) (l : List Pool) :
    (List.insertionSort tvlDesc l).filter (fun q => decide (q.tvlUSD = t)) =
      l.filter (fun q => decide (q.tvlUSD = t)) := by
  induction l with
  | nil => rfl
  | cons x xs ih =>
    rw [List.insertionSort, filter_orderedInsert_tvl, List.filter_cons]
    by_cases hx : x.tvlUSD = t <;> simp [hx, ih]

/-- C5: getAvailablePoolsForPair returns exactly the known pools whose (token0, token1)
match the wrapped, lowercased pair in either orientation (a permutation of the filter),
sorted by descending TVL, with equal-TVL pools kept in stable stored order (the filter by
any fixed TVL value is unchanged by the sort); repeated calls with no intervening change
return an identical list. -/
theorem getAvailablePoolsForPair_spec (wrapETH : String → String) (pools : List Pool)
    (srcToken destToken : String) :
    List.Perm (getAvailablePoolsForPair wrapETH pools srcToken destToken)
      (pools.filter
        (pairMatches ((wrapETH srcToken).toLower) ((wrapETH destToken).toLower))) ∧
    List.Sorted tvlDesc (getAvailablePoolsForPair wrapETH pools srcToken destToken) ∧
    (∀ t : ℚ,
      (getAvailablePoolsForPair wrapETH pools srcToken destToken).filter
          (fun q => decide (q.tvlUSD = t)) =
        (pools.filter
            (pairMatches ((wrapETH srcToken).toLower) ((wrapETH destToken).toLower))).filter
          (fun q => decide (q.tvlUSD = t))) ∧
    getAvailablePoolsForPair wrapETH pools srcToken destToken =
      getAvailablePoolsForPair wrapETH pools srcToken destToken := by
  exact ⟨List.perm_insertionSort _ _, List.sorted_insertionSort _ _,
    fun t => filter_insertionSort_tvl t _, rfl⟩

/-- C3: getPricesVolume never propagates an exception: it returns null when the wrapped and
lowercased source and destination addresses coincide, when a source-side transfer fee
applies on the BUY side, and when the quoting path throws any internal error (the total
`Option`-valued embedding is itself the no-escaping-exception property). -/
theorem getPricesVolume_failure_containment (dexKey : String) (chunksCount : Nat)
    (wrapETH : Token → Token) (srcToken destToken : Token) (amounts : List Int)
    (side : SwapSide) (srcFeeApplies : Bool) (pools : List Pool)
    (results : List (Option Int)) :
    ((wrapETH srcToken).address.toLower = (wrapETH destToken).address.toLower →
      getPricesVolume dexKey chunksCount wrapETH srcToken destToken amounts side
        srcFeeApplies pools results = none) ∧
    (srcFeeApplies = true → side = SwapSide.BUY →
      getPricesVolume dexKey chunksCount wrapETH srcToken destToken amounts side
        srcFeeApplies pools results = none) ∧
    (∀ e, getPricingFromRpc dexKey chunksCount (wrapETH srcToken) (wrapETH destToken)
          amounts side pools results = Except.error e →
      getPricesVolume dexKey chunksCount wrapETH srcToken destToken amounts side
        srcFeeApplies pools results = none) := by
  refine ⟨?_, ?_, ?_⟩
  · intro h
    by_cases h1 : srcFeeApplies && (side == SwapSide.BUY)
    · simp [getPricesVolume, h1]
    · simp [getPricesVolume, h1, h]
  · intro hf hs
    subst hf; subst hs
    rfl
  · intro e he
    by_cases h1 : srcFeeApplies && (side == SwapSide.BUY)
    · simp [getPricesVolume, h1]
    · by_cases h2 :
        (wrapETH srcToken).address.toLower = (wrapETH destToken).address.toLower
      · simp [getPricesVolume, h1, h2]
      · simp [getPricesVolume, h1, h2, he]

/-- C3 witness: concrete null results for the three failure modes — identical wrapped
addresses; a source-side fee on the BUY side; and a thrown quoting error (an empty amount
vector makes the sample index read undefined, so calldata construction throws). -/
theorem getPricesVolume_failure_containment_witness :
    getPricesVolume "HydrexFi" 1 id tokenWETH tokenWETH [0] SwapSide.SELL false [] []
      = none ∧
    getPricesVolume "HydrexFi" 1 id tokenWETH tokenUSDC [0] SwapSide.BUY true [] []
      = none ∧
    getPricesVolume "HydrexFi" 1 id tokenWETH tokenUSDC [] SwapSide.SELL false [testPool] []
      = none := by
  refine ⟨?_, ?_, ?_⟩
  · exact (getPricesVolume_failure_containment "HydrexFi" 1 id tokenWETH tokenWETH [0]
      SwapSide.SELL false [] []).1 rfl
  · exact (getPricesVolume_failure_containment "HydrexFi" 1 id tokenWETH tokenUSDC [0]
      SwapSide.BUY true [] []).2.1 rfl rfl
  · exact (getPricesVolume_failure_containment "HydrexFi" 1 id tokenWETH tokenUSDC []
      SwapSide.SELL false [testPool] []).2.2 "TypeError: undefined sample amount" rfl

/-- C4 (amended): if the paginated bulk load fails with any remote error other than the
block-unavailability condition (which is retried internally), initialization does not abort
with the prior pool set intact: it replaces the registry's stored pool set wholesale —
atomically, with no partial overwrite — by the fixed mock seed set; on success it likewise
replaces the set wholesale with the loaded pools. -/
theorem initRegistry_wholesale_replacement (prior : List Pool) (e : String)
    (loaded : List Pool) :
    initRegistry prior (Except.error e) = getMockPoolsForTesting ∧
    initRegistry prior (Except.ok loaded) = loaded :=
  ⟨rfl, rfl⟩

end HydrexFi
